import Mathlib

/-!
Verification development for the Femtosense voice-command generation
pipeline.  The Python sources under `src/backend` (batch processor, input
processor, file manager, audio converter) and `src/database` (path
generator, storage config, file validator, S3 storage) are shallowly
embedded below: pure Python string functions become Lean functions over
`List Char` / `String`, stateful storage operations become explicit state
passing over function-typed stores, and Python exceptions become
`Except PyError`.  External collaborators (the GPT variation service, the
TTS synthesis service, the ffmpeg conversion body, the AWS S3 client) are
modelled as explicit function parameters, matching the narrow interfaces
through which the code invokes them.
-/

/-! ## Character-level helpers (ASCII fragment of Python str methods) -/

/-- Unpacking `Char.ofNat` for valid code points. -/
theorem charToNatOfNat {n : Nat} (h : n < 55296) : (Char.ofNat n).toNat = n := by
  unfold Char.ofNat
  rw [dif_pos (Or.inl h)]
  rfl

theorem charEqToNat {c d : Char} (h : c.toNat = d.toNat) : c = d :=
  Char.ext (UInt32.ext h)

theorem eqCharIffToNat {c : Char} {d : Char} : c = d ↔ c.toNat = d.toNat :=
  ⟨fun h => h ▸ rfl, charEqToNat⟩

theorem isWhitespaceIff {c : Char} : c.isWhitespace = true ↔
    (c.toNat = 32 ∨ c.toNat = 9 ∨ c.toNat = 13 ∨ c.toNat = 10) := by
  have h1 : (' ' : Char).toNat = 32 := rfl
  have h2 : ('\t' : Char).toNat = 9 := rfl
  have h3 : ('\r' : Char).toNat = 13 := rfl
  have h4 : ('\n' : Char).toNat = 10 := rfl
  unfold Char.isWhitespace
  simp only [Bool.or_eq_true, decide_eq_true_eq, eqCharIffToNat, h1, h2, h3, h4]
  omega

theorem isLowerIff {c : Char} : c.isLower = true ↔ (97 ≤ c.toNat ∧ c.toNat ≤ 122) := by
  simp [Char.isLower]
  exact ⟨fun ⟨a, b⟩ => ⟨a, b⟩, fun ⟨a, b⟩ => ⟨a, b⟩⟩

theorem isUpperIff {c : Char} : c.isUpper = true ↔ (65 ≤ c.toNat ∧ c.toNat ≤ 90) := by
  simp [Char.isUpper]
  exact ⟨fun ⟨a, b⟩ => ⟨a, b⟩, fun ⟨a, b⟩ => ⟨a, b⟩⟩

theorem isDigitIff {c : Char} : c.isDigit = true ↔ (48 ≤ c.toNat ∧ c.toNat ≤ 57) := by
  simp [Char.isDigit]
  exact ⟨fun ⟨a, b⟩ => ⟨a, b⟩, fun ⟨a, b⟩ => ⟨a, b⟩⟩

theorem toLowerOfUpper {c : Char} (h : 65 ≤ c.toNat ∧ c.toNat ≤ 90) :
    c.toLower.toNat = c.toNat + 32 := by
  unfold Char.toLower
  rw [if_pos ⟨h.1, h.2⟩]
  exact charToNatOfNat (by omega)

theorem toLowerOfNotUpper {c : Char} (h : ¬(65 ≤ c.toNat ∧ c.toNat ≤ 90)) :
    c.toLower = c := by
  unfold Char.toLower
  rw [if_neg h]

theorem toUpperOfLower {c : Char} (h : 97 ≤ c.toNat ∧ c.toNat ≤ 122) :
    c.toUpper.toNat = c.toNat - 32 := by
  unfold Char.toUpper
  rw [if_pos ⟨h.1, h.2⟩]
  exact charToNatOfNat (by omega)

theorem toUpperOfNotLower {c : Char} (h : ¬(97 ≤ c.toNat ∧ c.toNat ≤ 122)) :
    c.toUpper = c := by
  unfold Char.toUpper
  rw [if_neg h]

theorem toUpper_isWhitespace (c : Char) : c.toUpper.isWhitespace = c.isWhitespace := by
  by_cases h : 97 ≤ c.toNat ∧ c.toNat ≤ 122
  · have h2 := toUpperOfLower h
    have hl : c.toUpper.isWhitespace = false := by
      rw [Bool.eq_false_iff]
      intro hw
      rw [isWhitespaceIff] at hw
      omega
    have hr : c.isWhitespace = false := by
      rw [Bool.eq_false_iff]
      intro hw
      rw [isWhitespaceIff] at hw
      omega
    rw [hl, hr]
  · rw [toUpperOfNotLower h]

theorem toUpper_idem (c : Char) : c.toUpper.toUpper = c.toUpper := by
  by_cases h : 97 ≤ c.toNat ∧ c.toNat ≤ 122
  · have h2 := toUpperOfLower h
    rw [toUpperOfNotLower (by omega)]
  · rw [toUpperOfNotLower h, toUpperOfNotLower h]

/-- Model of Python `str.strip(chars)` restricted to a Boolean character
class: remove matching characters from both ends. -/
def pyStripBy (p : Char → Bool) (l : List Char) : List Char :=
  (l.dropWhile p).rdropWhile p

theorem pyStripBy_idem (p : Char → Bool) (l : List Char) :
    pyStripBy p (pyStripBy p l) = pyStripBy p l := by
  unfold pyStripBy
  have hfix : List.dropWhile p ((l.dropWhile p).rdropWhile p) = (l.dropWhile p).rdropWhile p := by
    rcases hpre : (l.dropWhile p).rdropWhile p with _ | ⟨c, rest⟩
    · rfl
    · obtain ⟨t, ht⟩ := List.rdropWhile_prefix p (l.dropWhile p)
      rw [hpre] at ht
      have hidem := List.dropWhile_idempotent p l
      rw [← ht] at hidem
      have hpc : p c = false := by
        by_contra hpc
        rw [Bool.not_eq_false] at hpc
        rw [List.cons_append, List.dropWhile_cons_of_pos hpc] at hidem
        have hle := (List.dropWhile_sublist (l := rest ++ t) p).length_le
        have hlen := congrArg List.length hidem
        simp only [List.cons_append, List.length_cons, List.length_append] at hlen
        simp only [List.length_append] at hle
        omega
      rw [List.dropWhile_cons_of_neg (by simp [hpc])]
  rw [hfix, List.rdropWhile_idempotent]

theorem rdropWhile_map (f : Char → Char) (p : Char → Bool) (l : List Char) :
    (l.map f).rdropWhile p = (l.rdropWhile (p ∘ f)).map f := by
  unfold List.rdropWhile
  rw [← List.map_reverse, List.dropWhile_map, List.map_reverse]

theorem pyStripBy_map (f : Char → Char) (p : Char → Bool) (l : List Char)
    (hp : ∀ c, p (f c) = p c) :
    pyStripBy p (l.map f) = (pyStripBy p l).map f := by
  have hcomp : (p ∘ f) = p := funext hp
  unfold pyStripBy
  rw [List.dropWhile_map, rdropWhile_map, hcomp]

theorem mem_pyStripBy {p : Char → Bool} {l : List Char} {c : Char}
    (h : c ∈ pyStripBy p l) : c ∈ l := by
  unfold pyStripBy at h
  obtain ⟨t, ht⟩ := List.rdropWhile_prefix p (l.dropWhile p)
  have h2 : c ∈ l.dropWhile p := by
    rw [← ht]
    exact List.mem_append_left t h
  exact (List.dropWhile_sublist p).mem h2

/-! ## PathGenerator (src/database/src/utils/path_generator.py) -/

/-- One character is in the class `[a-zA-Z0-9_-]` (the complement of the
module-level regex `VALID_PATH_CHARS = [^a-zA-Z0-9_-]`). -/
def pathCharOk (c : Char) : Bool :=
  c.isAlpha || c.isDigit || c = '_' || c = '-'

/-- One character is in the class `[a-z0-9_-]` (what sanitized components
are made of, and the character class of the spec regex). -/
def pathLowerOk (c : Char) : Bool :=
  c.isLower || c.isDigit || c = '_' || c = '-'

theorem pathCharOkIff {c : Char} : pathCharOk c = true ↔
    ((65 ≤ c.toNat ∧ c.toNat ≤ 90) ∨ (97 ≤ c.toNat ∧ c.toNat ≤ 122) ∨
     (48 ≤ c.toNat ∧ c.toNat ≤ 57) ∨ c.toNat = 95 ∨ c.toNat = 45) := by
  have h95 : ('_' : Char).toNat = 95 := rfl
  have h45 : ('-' : Char).toNat = 45 := rfl
  unfold pathCharOk Char.isAlpha
  simp only [Bool.or_eq_true, isUpperIff, isLowerIff, isDigitIff, eqCharIffToNat, h95, h45,
    decide_eq_true_eq]
  omega

theorem pathLowerOkIff {c : Char} : pathLowerOk c = true ↔
    ((97 ≤ c.toNat ∧ c.toNat ≤ 122) ∨
     (48 ≤ c.toNat ∧ c.toNat ≤ 57) ∨ c.toNat = 95 ∨ c.toNat = 45) := by
  have h95 : ('_' : Char).toNat = 95 := rfl
  have h45 : ('-' : Char).toNat = 45 := rfl
  unfold pathLowerOk
  simp only [Bool.or_eq_true, isLowerIff, isDigitIff, eqCharIffToNat, h95, h45,
    decide_eq_true_eq]
  omega

/-- `VALID_PATH_CHARS.sub('-', component)`: replace every character outside
`[a-zA-Z0-9_-]` by a hyphen. -/
def subInvalidPathChar (c : Char) : Char :=
  if pathCharOk c then c else '-'

/-- `PathGenerator.sanitize_path_component`: replace invalid characters by
hyphens, lower-case, then strip leading/trailing hyphens — in exactly the
order the Python code performs these steps. -/
def sanitize_path_component (s : String) : String :=
  String.mk (pyStripBy (fun c => c == '-') ((s.data.map subInvalidPathChar).map Char.toLower))

theorem pathLowerOk_toLower_sub (c : Char) :
    pathLowerOk (subInvalidPathChar c).toLower = true := by
  unfold subInvalidPathChar
  by_cases hok : pathCharOk c = true
  · rw [if_pos hok]
    rw [pathCharOkIff] at hok
    rw [pathLowerOkIff]
    by_cases hu : 65 ≤ c.toNat ∧ c.toNat ≤ 90
    · have h2 := toLowerOfUpper hu
      omega
    · rw [toLowerOfNotUpper hu]
      omega
  · rw [if_neg hok]
    decide

/-- Every character of a sanitized path component lies in `[a-z0-9_-]`. -/
theorem sanitize_all_pathLowerOk (s : String) :
    ∀ c ∈ (sanitize_path_component s).data, pathLowerOk c = true := by
  intro c hc
  have h1 : c ∈ (s.data.map subInvalidPathChar).map Char.toLower := mem_pyStripBy hc
  rw [List.mem_map] at h1
  obtain ⟨b, hb, hbc⟩ := h1
  rw [List.mem_map] at hb
  obtain ⟨a, _, hab⟩ := hb
  rw [← hbc, ← hab]
  exact pathLowerOk_toLower_sub a

theorem pathLowerOk_ne_slash {c : Char} (h : pathLowerOk c = true) : c ≠ '/' := by
  intro he
  subst he
  simp [pathLowerOk] at h

/-- `VoiceCommand` model (src/database/src/models/voice_command.py), as
used by the path generator: phrase, intent and language fields. -/
structure VoiceCommand where
  phrase : String
  intent : String
  language : String
deriving DecidableEq

/-- `StorageConfig` (src/database/src/config/storage_config.py): the S3
bucket name and the local storage root, the two pieces of state its path
helpers read. -/
structure StorageConfig where
  s3_bucket : String
  local_root : List String
deriving DecidableEq

/-- The default configuration: bucket `femtosense-voice-commands` and
local root `~/femtosense/voice_commands`. -/
def defaultStorageConfig : StorageConfig :=
  ⟨"femtosense-voice-commands", ["home", "femtosense", "voice_commands"]⟩

/-- `StorageConfig.get_s3_path`: `"{bucket}/{language}/{intent}/{variation}"`
(the `FILE_STRUCTURE` format strings substitute each argument verbatim). -/
def StorageConfig.get_s3_path (cfg : StorageConfig) (language intent variation : String) : String :=
  cfg.s3_bucket ++ "/" ++ language ++ "/" ++ intent ++ "/" ++ variation

/-- `PathGenerator.generate_s3_path`: sanitize all four components and join
them under `get_s3_path`, appending `"{voice}.wav"`. -/
def generate_s3_path (cfg : StorageConfig) (voice_command : VoiceCommand)
    (variation_id voice_id : String) : String :=
  cfg.get_s3_path (sanitize_path_component voice_command.language)
      (sanitize_path_component voice_command.intent)
      (sanitize_path_component variation_id)
    ++ "/" ++ sanitize_path_component voice_id ++ ".wav"

/-- Prepend a character to the first token of a token list (helper for the
separator split). -/
def consHead (c : Char) : List (List Char) → List (List Char)
  | [] => [[c]]
  | h :: t => (c :: h) :: t

/-- Split a character list on a separator character; tokens may be empty,
and the result always has one more token than there are separators. -/
def splitOnCharL (sep : Char) : List Char → List (List Char)
  | [] => [[]]
  | c :: cs =>
    if c = sep then [] :: splitOnCharL sep cs
    else consHead c (splitOnCharL sep cs)

theorem splitOnCharL_no_sep {sep : Char} {l : List Char} (h : ∀ c ∈ l, c ≠ sep) :
    splitOnCharL sep l = [l] := by
  induction l with
  | nil => rfl
  | cons c cs ih =>
    have hc : c ≠ sep := h c (by simp)
    have ih2 := ih (fun x hx => h x (by simp [hx]))
    simp only [splitOnCharL, if_neg hc, ih2, consHead]

theorem splitOnCharL_append {sep : Char} {a : List Char} (b : List Char)
    (h : ∀ c ∈ a, c ≠ sep) :
    splitOnCharL sep (a ++ sep :: b) = a :: splitOnCharL sep b := by
  induction a with
  | nil => simp [splitOnCharL]
  | cons c cs ih =>
    have hc : c ≠ sep := h c (by simp)
    have ih2 := ih (fun x hx => h x (by simp [hx]))
    simp only [List.cons_append, splitOnCharL, if_neg hc, List.append_eq, ih2, consHead]

/-- One path component matches `[a-z0-9_-]+`. -/
def compOk (l : List Char) : Bool :=
  !l.isEmpty && l.all pathLowerOk

/-- The final path component matches `[a-z0-9_-]+\.wav`. -/
def wavCompOk (l : List Char) : Bool :=
  decide (5 ≤ l.length) && decide (l.drop (l.length - 4) = ['.', 'w', 'a', 'v'])
    && compOk (l.take (l.length - 4))

/-- The spec's canonical-path regular expression
`^[a-z0-9_-]+/[a-z0-9_-]+/[a-z0-9_-]+/[a-z0-9_-]+\.wav$`: exactly four
slash-separated components, the first three matching `[a-z0-9_-]+` and the
last matching `[a-z0-9_-]+\.wav`. -/
def matchesCanonicalRegex (s : String) : Bool :=
  match splitOnCharL '/' s.data with
  | [c1, c2, c3, c4] => compOk c1 && compOk c2 && compOk c3 && wavCompOk c4
  | _ => false

/-- The bucket-prefixed variant
`^[a-z0-9_-]+/[a-z0-9_-]+/[a-z0-9_-]+/[a-z0-9_-]+/[a-z0-9_-]+\.wav$`:
five slash-separated components (bucket, language, intent, variation,
voice file). -/
def matchesBucketedRegex (s : String) : Bool :=
  match splitOnCharL '/' s.data with
  | [c0, c1, c2, c3, c4] => compOk c0 && compOk c1 && compOk c2 && compOk c3 && wavCompOk c4
  | _ => false

theorem wavCompOk_append_wav (stem : List Char) :
    wavCompOk (stem ++ ['.', 'w', 'a', 'v']) = compOk stem := by
  unfold wavCompOk
  rcases stem with _ | ⟨c, cs⟩
  · decide
  · have hlen : ((c :: cs) ++ ['.', 'w', 'a', 'v']).length = (c :: cs).length + 4 := by
      simp
    have hidx : ((c :: cs) ++ ['.', 'w', 'a', 'v']).length - 4 = (c :: cs).length := by
      omega
    rw [hidx]
    rw [List.drop_left, List.take_left]
    have h5 : (5 ≤ ((c :: cs) ++ ['.', 'w', 'a', 'v']).length) := by
      simp
    simp [h5]

/-! ## InputProcessor (src/backend/src/core/input_processor.py) -/

/-- `APP_CONFIG.SUPPORTED_LANGUAGES` (src/backend/src/config/app_config.py). -/
def SUPPORTED_LANGUAGES : List String := ["korean", "english", "japanese"]

/-- One validated voice-command row: the `intent`, `phrase` and `language`
keys of the dictionaries produced and consumed by the backend pipeline. -/
structure Command where
  intent : String
  phrase : String
  language : String
deriving DecidableEq

/-- Python `str.lower()` (ASCII fragment). -/
def pyLowerStr (s : String) : String :=
  String.mk (s.data.map Char.toLower)

/-- Python `str.upper()` (ASCII fragment). -/
def pyUpperStr (s : String) : String :=
  String.mk (s.data.map Char.toUpper)

/-- `InputProcessor.map_intent`: `intent_column.strip().upper()` (the phrase
argument is currently unused by the code). -/
def map_intent (phrase intent_column : String) : String :=
  String.mk ((pyStripBy Char.isWhitespace intent_column.data).map Char.toUpper)

/-- Python `str.split()` worker: accumulate the current maximal run of
characters not satisfying `p` (in reverse) and emit it when a separator or
the end of the string is reached. -/
def pySplitAux (p : Char → Bool) : List Char → List Char → List (List Char)
  | [], acc => if acc = [] then [] else [acc.reverse]
  | c :: cs, acc =>
    if p c then
      if acc = [] then pySplitAux p cs []
      else acc.reverse :: pySplitAux p cs []
    else pySplitAux p cs (c :: acc)

/-- Python `str.split()` with no argument: maximal whitespace-free runs,
with no empty tokens. -/
def pySplitWs (l : List Char) : List (List Char) := pySplitAux Char.isWhitespace l []

/-- Python `' '.join(tokens)`. -/
def joinSpace : List (List Char) → List Char
  | [] => []
  | [t] => t
  | t :: t2 :: rest => t ++ ' ' :: joinSpace (t2 :: rest)

/-- The character class kept by `_sanitize_phrase`'s comprehension:
`char.isalnum() or char.isspace()` (ASCII fragment). -/
def keepAlnumSpace (c : Char) : Bool := c.isAlphanum || c.isWhitespace

/-- `InputProcessor._sanitize_phrase` on character lists:
`' '.join(phrase.split())` followed by filtering to alphanumeric or
whitespace characters — in exactly the order the Python code performs
these steps. -/
def sanitizePhraseL (l : List Char) : List Char :=
  (joinSpace (pySplitWs l)).filter keepAlnumSpace

/-- `InputProcessor._sanitize_phrase`. -/
def sanitize_phrase (phrase : String) : String :=
  String.mk (sanitizePhraseL phrase.data)

/-- `ValidationError` (src/backend/src/utils/error_handler.py) cases raised
by `validate_row`. -/
inductive RowError where
  | unsupportedLanguage : String → RowError
  | emptyIntentOrPhrase : RowError
deriving DecidableEq

/-- `InputProcessor.validate_row`: map the intent through
`map_intent`, lower-case the language, sanitize the phrase, reject
unsupported languages and empty intent/phrase, and return the validated
command dictionary. -/
def validate_row (row : Command) : Except RowError Command :=
  if pyLowerStr row.language ∉ SUPPORTED_LANGUAGES then
    Except.error (RowError.unsupportedLanguage (pyLowerStr row.language))
  else if map_intent row.phrase row.intent = "" ∨ sanitize_phrase row.phrase = "" then
    Except.error RowError.emptyIntentOrPhrase
  else
    Except.ok ⟨map_intent row.phrase row.intent, sanitize_phrase row.phrase,
      pyLowerStr row.language⟩

theorem pySplitAux_tokens (p : Char → Bool) (l : List Char) :
    ∀ acc, (∀ c ∈ acc, p c = false) →
    ∀ t ∈ pySplitAux p l acc, t ≠ [] ∧ ∀ c ∈ t, p c = false := by
  induction l with
  | nil =>
    intro acc hacc t ht
    unfold pySplitAux at ht
    by_cases h : acc = []
    · simp [h] at ht
    · rw [if_neg h] at ht
      simp at ht
      subst ht
      refine ⟨by simpa using h, fun c hc => hacc c (by simpa using hc)⟩
  | cons c cs ih =>
    intro acc hacc t ht
    unfold pySplitAux at ht
    by_cases hp : p c = true
    · rw [if_pos hp] at ht
      by_cases h : acc = []
      · rw [if_pos h] at ht
        exact ih [] (by simp) t ht
      · rw [if_neg h] at ht
        rcases List.mem_cons.mp ht with he | hm
        · subst he
          refine ⟨by simpa using h, fun x hx => hacc x (by simpa using hx)⟩
        · exact ih [] (by simp) t hm
    · rw [if_neg hp] at ht
      refine ih (c :: acc) ?_ t ht
      intro x hx
      rcases List.mem_cons.mp hx with he | hm
      · subst he
        simpa using hp
      · exact hacc x hm

theorem pySplitAux_chars (p : Char → Bool) (l : List Char) :
    ∀ acc, ∀ t ∈ pySplitAux p l acc, ∀ c ∈ t, c ∈ l ∨ c ∈ acc := by
  induction l with
  | nil =>
    intro acc t ht c hc
    unfold pySplitAux at ht
    by_cases h : acc = []
    · simp [h] at ht
    · rw [if_neg h] at ht
      simp at ht
      subst ht
      right
      simpa using hc
  | cons a cs ih =>
    intro acc t ht c hc
    unfold pySplitAux at ht
    by_cases hp : p a = true
    · rw [if_pos hp] at ht
      by_cases h : acc = []
      · rw [if_pos h] at ht
        rcases ih [] t ht c hc with hm | hm
        · exact Or.inl (by simp [hm])
        · simp at hm
      · rw [if_neg h] at ht
        rcases List.mem_cons.mp ht with he | hm
        · subst he
          right
          simpa using hc
        · rcases ih [] t hm c hc with hx | hx
          · exact Or.inl (List.mem_cons_of_mem a hx)
          · simp at hx
    · rw [if_neg hp] at ht
      rcases ih (a :: acc) t ht c hc with hx | hx
      · exact Or.inl (List.mem_cons_of_mem a hx)
      · rcases List.mem_cons.mp hx with he | hm
        · exact Or.inl (he ▸ List.mem_cons_self a cs)
        · exact Or.inr hm

theorem pySplitAux_run (p : Char → Bool) (t : List Char) (ht : ∀ c ∈ t, p c = false) :
    ∀ r acc, pySplitAux p (t ++ r) acc = pySplitAux p r (t.reverse ++ acc) := by
  induction t with
  | nil => simp
  | cons c ts ih =>
    intro r acc
    have hc : p c = false := ht c (by simp)
    rw [List.cons_append]
    have hstep : pySplitAux p (c :: (ts ++ r)) acc = pySplitAux p (ts ++ r) (c :: acc) := by
      conv_lhs => unfold pySplitAux
      rw [if_neg (by simp [hc])]
    rw [hstep, ih (fun x hx => ht x (by simp [hx])) r (c :: acc)]
    simp [List.append_assoc]

theorem splitWs_joinSpace (toks : List (List Char))
    (h : ∀ t ∈ toks, t ≠ [] ∧ ∀ c ∈ t, Char.isWhitespace c = false) :
    pySplitWs (joinSpace toks) = toks := by
  induction toks with
  | nil => rfl
  | cons t rest ih =>
    have hne : t ≠ [] := (h t (by simp)).1
    have hwf : ∀ c ∈ t, Char.isWhitespace c = false := (h t (by simp)).2
    cases rest with
    | nil =>
      show pySplitAux Char.isWhitespace (joinSpace [t]) [] = [t]
      have hj : joinSpace [t] = t ++ [] := by simp [joinSpace]
      rw [hj, pySplitAux_run Char.isWhitespace t hwf [] []]
      unfold pySplitAux
      rw [if_neg (by simp [hne])]
      simp
    | cons t2 rs =>
      show pySplitAux Char.isWhitespace (joinSpace (t :: t2 :: rs)) [] = t :: t2 :: rs
      have hj : joinSpace (t :: t2 :: rs) = t ++ ' ' :: joinSpace (t2 :: rs) := by
        simp [joinSpace]
      rw [hj, pySplitAux_run Char.isWhitespace t hwf _ []]
      unfold pySplitAux
      rw [if_pos (by decide)]
      rw [if_neg (by simp [hne])]
      have ih2 := ih (fun x hx => h x (by simp [hx]))
      unfold pySplitWs at ih2
      rw [ih2]
      simp

theorem joinSpace_chars (toks : List (List Char)) :
    ∀ c ∈ joinSpace toks, (∃ t ∈ toks, c ∈ t) ∨ c = ' ' := by
  induction toks with
  | nil => simp [joinSpace]
  | cons t rest ih =>
    intro c hc
    cases rest with
    | nil =>
      simp only [joinSpace] at hc
      exact Or.inl ⟨t, by simp, hc⟩
    | cons t2 rs =>
      simp only [joinSpace] at hc
      rcases List.mem_append.mp hc with hm | hm
      · exact Or.inl ⟨t, by simp, hm⟩
      · rcases List.mem_cons.mp hm with he | hm2
        · exact Or.inr he
        · rcases ih c hm2 with ⟨u, hu, hcu⟩ | he
          · exact Or.inl ⟨u, List.mem_cons_of_mem t hu, hcu⟩
          · exact Or.inr he

theorem sanitizePhraseL_idem (l : List Char)
    (h : ∀ c ∈ l, keepAlnumSpace c = true) :
    sanitizePhraseL (sanitizePhraseL l) = sanitizePhraseL l := by
  have htoks := pySplitAux_tokens Char.isWhitespace l [] (by simp)
  have hchars := pySplitAux_chars Char.isWhitespace l []
  have hfilt : ∀ (m : List (List Char)),
      (∀ t ∈ m, ∀ c ∈ t, c ∈ l ∨ c = ' ') →
      (joinSpace m).filter keepAlnumSpace = joinSpace m := by
    intro m hm
    apply List.filter_eq_self.mpr
    intro c hc
    rcases joinSpace_chars m c hc with ⟨t, htm, hct⟩ | he
    · rcases hm t htm c hct with hcl | he
      · exact h c hcl
      · subst he
        decide
    · subst he
      decide
  have hs1 : sanitizePhraseL l = joinSpace (pySplitWs l) := by
    unfold sanitizePhraseL
    apply hfilt
    intro t htm c hct
    rcases hchars t htm c hct with hcl | hf
    · exact Or.inl hcl
    · simp at hf
  rw [hs1]
  unfold sanitizePhraseL
  rw [splitWs_joinSpace (pySplitWs l) htoks]
  apply hfilt
  intro t htm c hct
  rcases hchars t htm c hct with hcl | hf
  · exact Or.inl hcl
  · simp at hf

/-! ## Python call/exception model for the batch pipeline -/

/-- Python exceptions raised or caught by the embedded code.  All of these
derive from `Exception`, so a bare `except Exception` handler catches every
case; `except wave.Error` catches only `waveError`. -/
inductive PyError where
  | typeError : String → PyError
  | nameError : String → PyError
  | waveError : String → PyError
  | exc : String → PyError
deriving DecidableEq

/-- `str(e)`: the message of an exception, as stored into the batch
error report. -/
def pyErrMsg : PyError → String
  | PyError.typeError m => m
  | PyError.nameError m => m
  | PyError.waveError m => m
  | PyError.exc m => m

/-- Runtime values flowing through the pipeline calls (strings, byte
payloads, pairs). -/
inductive PyVal where
  | str : String → PyVal
  | bytes : String → PyVal
  | pair : PyVal → PyVal → PyVal
deriving DecidableEq

/-- The positional-argument shape of a Python callable: how many
parameters have no default, and how many can be passed positionally. -/
structure PySig where
  requiredPos : Nat
  maxPos : Nat
deriving DecidableEq

/-- `convert_audio(input_path, output_path, target_format, sample_rate=…,
bit_depth=…)` (src/backend/src/utils/audio_converter.py): three required
positional parameters, five positional parameters in total. -/
def convert_audio_params : PySig := ⟨3, 5⟩

/-- Bound method `FileManager.save_audio_file(audio_data, metadata)`
(src/backend/src/core/file_manager.py): two required positional
parameters and no further ones. -/
def save_audio_file_params : PySig := ⟨2, 2⟩

/-- Python call semantics for positional arguments: passing fewer than
the required count, or more than the accepted count, raises `TypeError`
before the body runs; otherwise the body runs on the arguments. -/
def callPy (sig : PySig) (args : List PyVal)
    (body : List PyVal → Except PyError PyVal) : Except PyError PyVal :=
  if args.length < sig.requiredPos then
    Except.error (PyError.typeError "missing required positional arguments")
  else if sig.maxPos < args.length then
    Except.error (PyError.typeError "too many positional arguments")
  else body args

/-! ## BatchProcessor (src/backend/src/core/batch_processor.py)

The GPT variation service and the TTS synthesis service are invoked
through `_call_gpt_api` / `_generate_audio`; the source ships placeholder
bodies for both and the spec treats them as external collaborators, so the
embedding takes the collaborator as a function parameter (`gpt`, `synth`)
and also provides the source's placeholder bodies. -/

/-- The source's placeholder `BatchProcessor._call_gpt_api`: five
variations of the form `"{phrase} (variation {i})"` for `i` in `1..5`. -/
def _call_gpt_api (phrase : String) : List String :=
  (List.range 5).map (fun i => phrase ++ " (variation " ++ toString (i + 1) ++ ")")

/-- The source's placeholder `BatchProcessor._generate_audio`: constant
placeholder bytes, never raising. -/
def _generate_audio (text language : String) : PyVal :=
  PyVal.bytes "audio_data_placeholder"

/-- Does `needle` occur at the head of `hay`? -/
def headMatches : List Char → List Char → Bool
  | [], _ => true
  | _ :: _, [] => false
  | a :: as, b :: bs => a == b && headMatches as bs

/-- Python `needle in hay` for strings: contiguous substring occurrence. -/
def occursIn (needle : List Char) : List Char → Bool
  | [] => headMatches needle []
  | b :: bs => headMatches needle (b :: bs) || occursIn needle bs

/-- Python `a in b` on strings. -/
def pyInStr (needle hay : String) : Bool := occursIn needle.data hay.data

/-- `BatchProcessor._validate_variations`: keep the variations whose
lower-cased text contains the lower-cased intent as a substring. -/
def _validate_variations (variations : List String) (intent : String) : List String :=
  variations.filter (fun v => pyInStr (pyLowerStr intent) (pyLowerStr v))

/-- `BatchProcessor.generate_variations`: call the GPT collaborator on the
command's phrase and filter the raw variations through
`_validate_variations` against the command's intent.  The source wraps the
body in `try/except` that logs and re-raises, which leaves the exception
unchanged. -/
def generate_variations (gpt : String → Except PyError (List String))
    (command : Command) : Except PyError (List String) := do
  let raw ← gpt command.phrase
  pure (_validate_variations raw command.intent)

/-- The body of one iteration of `BatchProcessor.create_audio_files`:
synthesize audio for the variation, call `convert_audio(audio_data, 'wav')`
with two positional arguments, then call
`self.file_manager.save_audio_file(converted, metadata['intent'],
variation, metadata['language'])` with four positional arguments.  The
bodies of the two callees are abstract parameters; `callPy` applies
Python's arity check before either body could run. -/
def create_audio_one (synth : String → String → Except PyError PyVal)
    (convertBody saveBody : List PyVal → Except PyError PyVal)
    (metadata : Command) (variation : String) : Except PyError PyVal := do
  let audio_data ← synth variation metadata.language
  let converted ← callPy convert_audio_params [audio_data, PyVal.str "wav"] convertBody
  let saved ← callPy save_audio_file_params
    [converted, PyVal.str metadata.intent, PyVal.str variation, PyVal.str metadata.language]
    saveBody
  pure saved

/-- `BatchProcessor.create_audio_files`: iterate over the variations,
appending each successful result and swallowing (logging only) any
exception raised inside the loop body. -/
def create_audio_files (synth : String → String → Except PyError PyVal)
    (convertBody saveBody : List PyVal → Except PyError PyVal)
    (variations : List String) (metadata : Command) : List PyVal :=
  variations.foldl
    (fun audio_files variation =>
      match create_audio_one synth convertBody saveBody metadata variation with
      | Except.ok file => audio_files ++ [file]
      | Except.error _ => audio_files)
    []

/-- `BatchProcessor._process_command`: generate variations, then create
audio files; any exception from variation generation propagates. -/
def _process_command (gpt : String → Except PyError (List String))
    (synth : String → String → Except PyError PyVal)
    (convertBody saveBody : List PyVal → Except PyError PyVal)
    (command : Command) : Except PyError (List String × List PyVal) := do
  let variations ← generate_variations gpt command
  pure (variations, create_audio_files synth convertBody saveBody variations command)

/-- The aggregate result dictionary built by `process_batch`. -/
structure BatchResults where
  total_commands : Nat
  successful_variations : Nat
  successful_audio_files : Nat
  errors : List (Command × String)
deriving DecidableEq

/-- The aggregation loop of `BatchProcessor.process_batch`: one future per
command; a future that returns adds its variation and audio-file counts,
a future that raises appends one `{command, error}` entry.  Completion
order is modelled as submission order; every claim checked against this
model is insensitive to the order in which futures complete. -/
def process_batch_core
    (proc : Command → Except PyError (List String × List PyVal))
    (commands : List Command) : BatchResults :=
  commands.foldl
    (fun results command =>
      match proc command with
      | Except.ok (variations, audio_files) =>
        BatchResults.mk results.total_commands
          (results.successful_variations + variations.length)
          (results.successful_audio_files + audio_files.length)
          results.errors
      | Except.error e =>
        BatchResults.mk results.total_commands
          results.successful_variations
          results.successful_audio_files
          (results.errors ++ [(command, pyErrMsg e)]))
    (BatchResults.mk commands.length 0 0 [])

/-- Unfolding `_process_command` by the outcome of the GPT call: the
per-command future fails exactly when variation generation fails, because
`create_audio_files` catches every per-variation exception. -/
theorem _process_command_eq (gpt : String → Except PyError (List String))
    (synth : String → String → Except PyError PyVal)
    (convertBody saveBody : List PyVal → Except PyError PyVal)
    (command : Command) :
    _process_command gpt synth convertBody saveBody command =
      match gpt command.phrase with
      | Except.error e => Except.error e
      | Except.ok raw =>
        Except.ok (_validate_variations raw command.intent,
          create_audio_files synth convertBody saveBody
            (_validate_variations raw command.intent) command) := by
  unfold _process_command generate_variations
  cases gpt command.phrase <;> rfl

/-- The step function of the aggregation fold, in isolation. -/
def process_batch_step
    (proc : Command → Except PyError (List String × List PyVal))
    (results : BatchResults) (command : Command) : BatchResults :=
  match proc command with
  | Except.ok (variations, audio_files) =>
    BatchResults.mk results.total_commands
      (results.successful_variations + variations.length)
      (results.successful_audio_files + audio_files.length)
      results.errors
  | Except.error e =>
    BatchResults.mk results.total_commands
      results.successful_variations
      results.successful_audio_files
      (results.errors ++ [(command, pyErrMsg e)])

theorem process_batch_core_eq_foldl
    (proc : Command → Except PyError (List String × List PyVal))
    (commands : List Command) :
    process_batch_core proc commands =
      commands.foldl (process_batch_step proc) (BatchResults.mk commands.length 0 0 []) := by
  rfl

/-- Per-command error payload recorded by the aggregation loop. -/
def procErrEntry (proc : Command → Except PyError (List String × List PyVal))
    (c : Command) : Option (Command × String) :=
  match proc c with
  | Except.ok _ => none
  | Except.error e => some (c, pyErrMsg e)

/-- Per-command variation count contributed on success. -/
def procVarCount (proc : Command → Except PyError (List String × List PyVal))
    (c : Command) : Nat :=
  match proc c with
  | Except.ok (v, _) => v.length
  | Except.error _ => 0

/-- Per-command audio-file count contributed on success. -/
def procAudioCount (proc : Command → Except PyError (List String × List PyVal))
    (c : Command) : Nat :=
  match proc c with
  | Except.ok (_, a) => a.length
  | Except.error _ => 0

theorem process_batch_foldl_spec
    (proc : Command → Except PyError (List String × List PyVal))
    (commands : List Command) :
    ∀ init : BatchResults,
      commands.foldl (process_batch_step proc) init =
        BatchResults.mk init.total_commands
          (init.successful_variations + (commands.map (procVarCount proc)).sum)
          (init.successful_audio_files + (commands.map (procAudioCount proc)).sum)
          (init.errors ++ commands.filterMap (procErrEntry proc)) := by
  induction commands with
  | nil =>
    intro init
    simp
  | cons c cs ih =>
    intro init
    rw [List.foldl_cons, ih]
    unfold process_batch_step procVarCount procAudioCount procErrEntry
    rcases hp : proc c with e | ⟨v, a⟩
    · simp [hp, List.filterMap_cons, Nat.add_assoc]
    · simp [hp, List.filterMap_cons, Nat.add_assoc]

/-- Full characterization of `process_batch_core`: the total is the number
of submitted commands, the two counters sum the per-command contributions,
and the error list holds exactly one entry per failing command, in order. -/
theorem process_batch_core_spec
    (proc : Command → Except PyError (List String × List PyVal))
    (commands : List Command) :
    process_batch_core proc commands =
      BatchResults.mk commands.length
        ((commands.map (procVarCount proc)).sum)
        ((commands.map (procAudioCount proc)).sum)
        (commands.filterMap (procErrEntry proc)) := by
  rw [process_batch_core_eq_foldl, process_batch_foldl_spec]
  simp

/-! ## FileManager (src/backend/src/core/file_manager.py) -/

/-- The metadata dictionary consumed by `FileManager`: `language`,
`intent`, `variation`, and the optional `voice_id` key read through
`metadata.get('voice_id', 'default')`. -/
structure FMMetadata where
  language : String
  intent : String
  variation : String
  voice_id : Option String
deriving DecidableEq

/-- `FileManager._generate_file_path`:
`Path(language, intent, f"{variation}_{voice_id-or-default}.wav")` —
a relative path of three components, with variation and voice id joined
by an underscore inside the file name. -/
def _generate_file_path (metadata : FMMetadata) : List String :=
  [metadata.language, metadata.intent,
   metadata.variation ++ "_" ++ metadata.voice_id.getD "default" ++ ".wav"]

/-- Join path components with `/` (how a `Path` renders). -/
def joinPathL : List String → String
  | [] => ""
  | [x] => x
  | x :: y :: rest => x ++ "/" ++ joinPathL (y :: rest)

/-- `pathlib.Path.suffix` of a file name: the `"."`-prefixed extension
after the last dot, or `""` when the name has no dot. -/
def pathSuffix (name : String) : String :=
  let rev := name.data.reverse
  let ext := rev.takeWhile (fun c => !(c == '.'))
  if rev.length = ext.length then "" else "." ++ String.mk ext.reverse

/-- A function-typed store mapping path strings to byte payloads. -/
def StoreMap : Type := String → Option (List Nat)

/-- Remove one key from a store (used both for `Path.unlink` and for the
S3 `delete_object` call, which succeeds whether or not the key exists). -/
def mapRemove (st : StoreMap) (key : String) : StoreMap :=
  fun q => if q = key then none else st q

/-- Write one key into a store, overwriting any previous payload (the
semantics of `open(path, 'wb')` followed by `write`, and of
`upload_file` to an S3 key). -/
def mapWrite (st : StoreMap) (key : String) (data : List Nat) : StoreMap :=
  fun q => if q = key then some data else st q

/-- The observable storage state of one `FileManager`: the local
filesystem under the base path and the S3 bucket contents. -/
structure FMState where
  localStore : StoreMap
  s3Store : StoreMap

/-- `FileManager.save_audio_file`: build the relative path from the
metadata, write the payload locally at `base / relative`, then (since the
generated file name always carries the `.wav` suffix, the conversion
branch is not taken) upload the same payload to the S3 key
`"{language}/{intent}/{name}"`.  The conversion branch (taken only for
non-`.wav` suffixes) is modelled by the abstract collaborator
`convEffect`, mirroring the external `convert_to_wav` call. -/
def save_audio_file (convEffect : FMState → String → String → FMState)
    (base : List String) (st : FMState) (audio_data : List Nat)
    (metadata : FMMetadata) : (String × String) × FMState :=
  let rel := _generate_file_path metadata
  let name := rel.getLastD ""
  let local_path := joinPathL (base ++ rel)
  let s3_path := metadata.language ++ "/" ++ metadata.intent ++ "/" ++ name
  let st1 := FMState.mk (mapWrite st.localStore local_path audio_data) st.s3Store
  if pyLowerStr (pathSuffix name) ≠ ".wav" then
    let wav_path := local_path ++ ".converted.wav"
    ((wav_path, s3_path), convEffect st1 local_path wav_path)
  else
    ((local_path, s3_path), FMState.mk st1.localStore (mapWrite st1.s3Store s3_path audio_data))

/-- Strip leading `/` characters: Python `str.lstrip('/')`. -/
def lstripSlash (s : String) : String :=
  String.mk (s.data.dropWhile (fun c => c == '/'))

/-- Python `str.replace(old, new)` worker with explicit fuel (the input
length bounds the recursion): replace non-overlapping occurrences left to
right. -/
def pyReplaceAux (pat rep : List Char) : Nat → List Char → List Char
  | 0, l => l
  | _ + 1, [] => []
  | fuel + 1, c :: cs =>
    if !pat.isEmpty && headMatches pat (c :: cs) then
      rep ++ pyReplaceAux pat rep fuel (List.drop (pat.length - 1) cs)
    else
      c :: pyReplaceAux pat rep fuel cs

/-- Python `s.replace(pat, rep)`. -/
def pyReplaceStr (s pat rep : String) : String :=
  String.mk (pyReplaceAux pat.data rep.data s.data.length s.data)

/-- `FileManager.delete_audio_file`: unlink the local file when it exists,
then issue `delete_object` on the derived S3 key and return `True`; the
`except` clause returning `False` fires only when the S3 client raises,
which the modelled client (`mapRemove`, matching S3 delete semantics:
deleting an absent key succeeds) never does. -/
def delete_audio_file (base : String) (st : FMState) (file_path : String) :
    Bool × FMState :=
  (true,
    FMState.mk
      (if (st.localStore (base ++ "/" ++ file_path)).isSome then
        mapRemove st.localStore (base ++ "/" ++ file_path)
       else st.localStore)
      (mapRemove st.s3Store (lstripSlash (pyReplaceStr file_path base ""))))

/-! ## FileValidator (src/database/src/utils/file_validator.py) -/

/-- `MAX_FILE_SIZE = 10 * 1024 * 1024`. -/
def MAX_FILE_SIZE : Nat := 10 * 1024 * 1024

/-- `VALID_SAMPLE_RATES = (16000, 22050, 44100)`. -/
def VALID_SAMPLE_RATES : List Nat := [16000, 22050, 44100]

/-- `REQUIRED_CHANNELS = 1`. -/
def REQUIRED_CHANNELS : Nat := 1

/-- The names bound at module level in `file_validator.py`: its imports
(`wave`, `Path`, `Tuple`, `List`, `os`, `AudioFile`, `VoiceCommand`,
`StorageConfig`), its module constants, and the class it defines.
`BytesIO` is not among them: the module never imports `io`. -/
def fileValidatorModuleNames : List String :=
  ["wave", "Path", "Tuple", "List", "os", "AudioFile", "VoiceCommand", "StorageConfig",
   "VALID_SAMPLE_RATES", "MAX_FILE_SIZE", "REQUIRED_CHANNELS", "FileValidator"]

/-- The Python builtin namespace (the names resolvable in any module
without an import).  `BytesIO` lives in the `io` module and is not a
builtin. -/
def pyBuiltinNames : List String :=
  ["abs", "aiter", "anext", "all", "any", "ascii", "bin", "bool", "breakpoint",
   "bytearray", "bytes", "callable", "chr", "classmethod", "compile", "complex",
   "delattr", "dict", "dir", "divmod", "enumerate", "eval", "exec", "filter",
   "float", "format", "frozenset", "getattr", "globals", "hasattr", "hash",
   "help", "hex", "id", "input", "int", "isinstance", "issubclass", "iter",
   "len", "list", "locals", "map", "max", "memoryview", "min", "next", "object",
   "oct", "open", "ord", "pow", "print", "property", "range", "repr", "reversed",
   "round", "set", "setattr", "slice", "sorted", "staticmethod", "str", "sum",
   "super", "tuple", "type", "vars", "zip", "True", "False", "None",
   "Exception", "ValueError", "TypeError", "NameError", "KeyError", "OSError"]

/-- Python name resolution inside `file_validator.py`: a name resolves if
it is module-level or builtin; otherwise evaluating it raises
`NameError`. -/
def resolveFileValidatorName (n : String) : Except PyError String :=
  if n ∈ fileValidatorModuleNames ∨ n ∈ pyBuiltinNames then Except.ok n
  else Except.error (PyError.nameError ("name '" ++ n ++ "' is not defined"))

/-- The result of `wave.open` on a parsed WAV payload. -/
structure WavInfo where
  framerate : Nat
  nchannels : Nat
deriving DecidableEq

/-- `FileValidator.validate_wav_format`: the `try` body first evaluates
`BytesIO(wav_data)` — resolving the name `BytesIO` before anything can be
called — then would open the payload with the `wave` module (the abstract
collaborator `waveOpen`) and check sample rate and channel count.  The
`except wave.Error` handler converts only `waveError` into the
`(False, "Invalid WAV file format")` return; every other exception
propagates. -/
def validate_wav_format (waveOpen : List Nat → Except PyError WavInfo)
    (wav_data : List Nat) : Except PyError (Bool × String) :=
  let body : Except PyError (Bool × String) :=
    match resolveFileValidatorName "BytesIO" with
    | Except.error e => Except.error e
    | Except.ok _ =>
      match waveOpen wav_data with
      | Except.error e => Except.error e
      | Except.ok w =>
        if w.framerate ∉ VALID_SAMPLE_RATES then
          Except.ok (false, "Invalid sample rate: " ++ toString w.framerate)
        else if w.nchannels ≠ REQUIRED_CHANNELS then
          Except.ok (false, "Invalid number of channels: " ++ toString w.nchannels)
        else Except.ok (true, "WAV format is valid")
  match body with
  | Except.error (PyError.waveError _) => Except.ok (false, "Invalid WAV file format")
  | other => other

/-- The metadata attached to an `AudioFile`
(src/database/src/models/metadata.py), as read by the validator. -/
structure AFMetadata where
  file_format : String
  file_size : Nat
  sample_rate : Nat
deriving DecidableEq

/-- `AudioFile` (src/database/src/models/audio_file.py): payload plus
metadata. -/
structure AudioFile where
  data : List Nat
  metadata : AFMetadata
deriving DecidableEq

/-- `FileValidator.validate_audio_file`: size ceiling first, then the WAV
format check (whose exceptions propagate — there is no handler here), then
the metadata consistency checks. -/
def validate_audio_file (waveOpen : List Nat → Except PyError WavInfo)
    (audio_file : AudioFile) : Except PyError Bool :=
  if MAX_FILE_SIZE < audio_file.data.length then Except.ok false
  else
    match validate_wav_format waveOpen audio_file.data with
    | Except.error e => Except.error e
    | Except.ok (is_valid_wav, _) =>
      if is_valid_wav = false then Except.ok false
      else if pyLowerStr audio_file.metadata.file_format ≠ "wav" then Except.ok false
      else if audio_file.metadata.file_size ≠ audio_file.data.length then Except.ok false
      else if audio_file.metadata.sample_rate ∉ VALID_SAMPLE_RATES then Except.ok false
      else Except.ok true

/-! ## Claim theorems -/

/-- The source-placeholder synthesis collaborator, wrapped as an
`Except`-valued call (it never raises). -/
def sourceSynth : String → String → Except PyError PyVal :=
  fun text language => Except.ok (_generate_audio text language)

/-- The source-placeholder GPT collaborator, wrapped as an `Except`-valued
call (it never raises). -/
def sourceGpt : String → Except PyError (List String) :=
  fun phrase => Except.ok (_call_gpt_api phrase)

theorem create_audio_one_always_typeError
    (convertBody saveBody : List PyVal → Except PyError PyVal)
    (metadata : Command) (variation : String) :
    create_audio_one sourceSynth convertBody saveBody metadata variation =
      Except.error (PyError.typeError "missing required positional arguments") := rfl

theorem create_audio_files_const_acc
    (convertBody saveBody : List PyVal → Except PyError PyVal)
    (metadata : Command) (variations : List String) :
    ∀ acc : List PyVal,
      variations.foldl
        (fun audio_files variation =>
          match create_audio_one sourceSynth convertBody saveBody metadata variation with
          | Except.ok file => audio_files ++ [file]
          | Except.error _ => audio_files)
        acc = acc := by
  induction variations with
  | nil => intro acc; rfl
  | cons v vs ih =>
    intro acc
    rw [List.foldl_cons, create_audio_one_always_typeError]
    exact ih acc

/-- C3: with the source wiring (`_generate_audio` placeholder as the
synthesis step), every per-variation iteration of
`BatchProcessor.create_audio_files` raises `TypeError` at the
`convert_audio(audio_data, 'wav')` call — two positional arguments against
a signature whose first three parameters are required — before any file
write; the exception is caught inside the loop, so the function returns
the empty list for every variation list and every metadata dictionary
(the bodies of `convert_audio` and `save_audio_file` are universally
quantified: no choice of their behaviour can be reached). -/
theorem batch_create_audio_files_always_empty
    (convertBody saveBody : List PyVal → Except PyError PyVal)
    (metadata : Command) (variations : List String) :
    create_audio_files sourceSynth convertBody saveBody variations metadata = []
    ∧ ∀ v ∈ variations,
        create_audio_one sourceSynth convertBody saveBody metadata v =
          Except.error (PyError.typeError "missing required positional arguments") := by
  constructor
  · unfold create_audio_files
    exact create_audio_files_const_acc convertBody saveBody metadata variations []
  · intro v _
    exact create_audio_one_always_typeError convertBody saveBody metadata v

/-- Witness for C3 at a concrete input. -/
theorem batch_create_audio_files_always_empty_witness :
    create_audio_files sourceSynth (fun _ => Except.ok (PyVal.str "c"))
        (fun _ => Except.ok (PyVal.str "s")) ["turn on the lights please"]
        ⟨"LIGHTS_ON", "turn on the lights", "english"⟩ = []
    ∧ create_audio_one sourceSynth (fun _ => Except.ok (PyVal.str "c"))
        (fun _ => Except.ok (PyVal.str "s")) ⟨"LIGHTS_ON", "turn on the lights", "english"⟩
        "turn on the lights please" =
        Except.error (PyError.typeError "missing required positional arguments") := by
  have h := batch_create_audio_files_always_empty
    (fun _ => Except.ok (PyVal.str "c")) (fun _ => Except.ok (PyVal.str "s"))
    ⟨"LIGHTS_ON", "turn on the lights", "english"⟩ ["turn on the lights please"]
  exact ⟨h.1, h.2 "turn on the lights please" (by simp)⟩

/-- C10: for every byte payload, `FileValidator.validate_wav_format`
raises `NameError` — the name `BytesIO` is used but never imported in the
module, and the `except wave.Error` handler does not catch a `NameError` —
and consequently `FileValidator.validate_audio_file` raises instead of
returning a Bool for every audio file whose payload is within the 10 MB
ceiling (the `wave`-module collaborator is universally quantified; it is
never reached). -/
theorem validate_wav_format_raises_nameError
    (waveOpen : List Nat → Except PyError WavInfo) (audio_file : AudioFile)
    (h : audio_file.data.length ≤ MAX_FILE_SIZE) :
    validate_wav_format waveOpen audio_file.data =
      Except.error (PyError.nameError "name 'BytesIO' is not defined")
    ∧ validate_audio_file waveOpen audio_file =
      Except.error (PyError.nameError "name 'BytesIO' is not defined") := by
  have h1 : validate_wav_format waveOpen audio_file.data =
      Except.error (PyError.nameError "name 'BytesIO' is not defined") := by
    unfold validate_wav_format resolveFileValidatorName
    rw [if_neg (by decide)]
    rfl
  refine ⟨h1, ?_⟩
  unfold validate_audio_file
  rw [if_neg (Nat.not_lt.mpr h), h1]

/-- Witness for C10 at a concrete input. -/
theorem validate_wav_format_raises_nameError_witness :
    ((⟨[0, 1, 2], ⟨"wav", 3, 16000⟩⟩ : AudioFile).data.length ≤ MAX_FILE_SIZE)
    ∧ validate_audio_file (fun _ => Except.ok ⟨16000, 1⟩)
        (⟨[0, 1, 2], ⟨"wav", 3, 16000⟩⟩ : AudioFile) =
      Except.error (PyError.nameError "name 'BytesIO' is not defined") := by
  refine ⟨by decide, ?_⟩
  exact (validate_wav_format_raises_nameError (fun _ => Except.ok ⟨16000, 1⟩)
    ⟨[0, 1, 2], ⟨"wav", 3, 16000⟩⟩ (by decide)).2

/-- C8: each submitted Command produces exactly one terminal outcome in
the aggregated result: `total_commands` equals the number of submitted
commands, the error list holds exactly the entries of the failing
commands (so a command whose future returns never appears in it, and,
when the submitted commands are pairwise distinct, each command appears
at most once). -/
theorem process_batch_one_terminal_outcome
    (commands : List Command)
    (proc : Command → Except PyError (List String × List PyVal)) :
    (process_batch_core proc commands).total_commands = commands.length
    ∧ (process_batch_core proc commands).errors = commands.filterMap (procErrEntry proc)
    ∧ (∀ c ∈ commands, (proc c).isOk = true →
        ∀ p ∈ (process_batch_core proc commands).errors, p.1 ≠ c)
    ∧ (commands.Nodup → ((process_batch_core proc commands).errors.map Prod.fst).Nodup) := by
  have hspec := process_batch_core_spec proc commands
  refine ⟨by rw [hspec], by rw [hspec], ?_, ?_⟩
  · intro c _ hok p hp he
    rw [hspec] at hp
    simp only at hp
    obtain ⟨c', _, hsome⟩ := List.mem_filterMap.mp hp
    unfold procErrEntry at hsome
    rcases hc' : proc c' with e | val
    · rw [hc'] at hsome
      have hsome2 : some (c', pyErrMsg e) = some p := hsome
      have h3 := Option.some.inj hsome2
      have hfst : p.1 = c' := by
        rw [← h3]
      rw [he] at hfst
      rw [← hfst] at hc'
      rw [hc'] at hok
      simp [Except.isOk, Except.toBool] at hok
    · rw [hc'] at hsome
      simp at hsome
  · intro hnodup
    rw [hspec]
    simp only []
    rw [List.map_filterMap]
    refine List.Nodup.filterMap ?_ hnodup
    intro a a' b hb hb'
    unfold procErrEntry at hb hb'
    rcases ha : proc a with e | v <;> rw [ha] at hb <;> simp at hb
    rcases ha' : proc a' with e' | v' <;> rw [ha'] at hb' <;> simp at hb'
    exact hb.trans hb'.symm

/-- Witness for C8 at a concrete batch. -/
theorem process_batch_one_terminal_outcome_witness :
    (process_batch_core
      (fun c => _process_command sourceGpt sourceSynth
        (fun _ => Except.ok (PyVal.str "")) (fun _ => Except.ok (PyVal.str "")) c)
      [⟨"ON", "turn on", "english"⟩, ⟨"OFF", "turn off", "english"⟩]).total_commands = 2 := by
  have h := (process_batch_one_terminal_outcome
    [⟨"ON", "turn on", "english"⟩, ⟨"OFF", "turn off", "english"⟩]
    (fun c => _process_command sourceGpt sourceSynth
      (fun _ => Except.ok (PyVal.str "")) (fun _ => Except.ok (PyVal.str "")) c)).1
  rw [h]
  rfl

/-- A synthesis collaborator that raises on every call (the scenario of
the isolation property). -/
def synthAlwaysFail : String → String → Except PyError PyVal :=
  fun _ _ => Except.error (PyError.exc "SynthesisError: boom")

/-- A trivial body for the two miscalled callees. -/
def trivialBody : List PyVal → Except PyError PyVal :=
  fun _ => Except.ok (PyVal.str "")

theorem _process_command_isOk (gpt : String → Except PyError (List String))
    (synth : String → String → Except PyError PyVal)
    (convertBody saveBody : List PyVal → Except PyError PyVal) (c : Command) :
    (_process_command gpt synth convertBody saveBody c).isOk = (gpt c.phrase).isOk := by
  rw [_process_command_eq]
  cases gpt c.phrase <;> rfl

theorem procErrEntry_process_command (gpt : String → Except PyError (List String))
    (synth : String → String → Except PyError PyVal)
    (convertBody saveBody : List PyVal → Except PyError PyVal) (c : Command) :
    procErrEntry (fun x => _process_command gpt synth convertBody saveBody x) c =
      match gpt c.phrase with
      | Except.error e => some (c, pyErrMsg e)
      | Except.ok _ => none := by
  unfold procErrEntry
  simp only [_process_command_eq]
  cases gpt c.phrase <;> rfl

theorem errors_entry_fails
    (proc : Command → Except PyError (List String × List PyVal))
    (commands : List Command) :
    ∀ p ∈ (process_batch_core proc commands).errors, (proc p.1).isOk = false := by
  intro p hp
  rw [process_batch_core_spec] at hp
  simp only at hp
  obtain ⟨c', _, hsome⟩ := List.mem_filterMap.mp hp
  unfold procErrEntry at hsome
  rcases hc' : proc c' with e | val
  · rw [hc'] at hsome
    have h3 := Option.some.inj hsome
    rw [← h3]
    rw [hc']
    rfl
  · rw [hc'] at hsome
    simp at hsome

/-- C1 counterexample: the batch `[⟨ON, turn on⟩, ⟨ON, turn the thing on⟩]`
with a synthesis collaborator that raises on every call — in particular on
every variation of command `k` — produces a BatchResult whose error list
is empty (not a single entry referencing `k`), because `create_audio_files`
catches each per-variation exception inside its loop and only logs it. -/
theorem runBatch_synth_failure_cex :
    (process_batch_core
      (fun c => _process_command sourceGpt synthAlwaysFail trivialBody trivialBody c)
      [⟨"ON", "turn on", "english"⟩, ⟨"ON", "turn the thing on", "english"⟩]).errors = []
    ∧ (process_batch_core
      (fun c => _process_command sourceGpt synthAlwaysFail trivialBody trivialBody c)
      [⟨"ON", "turn on", "english"⟩, ⟨"ON", "turn the thing on", "english"⟩]).successful_audio_files
        = 0
    ∧ (process_batch_core
      (fun c => _process_command sourceGpt synthAlwaysFail trivialBody trivialBody c)
      [⟨"ON", "turn on", "english"⟩, ⟨"ON", "turn the thing on", "english"⟩]).total_commands
        = 2 := by
  exact ⟨rfl, rfl, rfl⟩

/-- C1 (amended): in a batch where command `k`'s generation step succeeds
(whatever the synthesis collaborator does — it may raise on every single
call), `runBatch` returns normally and the BatchResult contains NO error
entry referencing command `k`: per-variation synthesis failures are caught
inside `create_audio_files`, so `k` terminates as a success with zero
audio files; every error entry comes from a command whose own generation
step failed, so the other commands' outcomes are unaffected. -/
theorem runBatch_synth_failure_isolated (commands : List Command)
    (gpt : String → Except PyError (List String))
    (synth : String → String → Except PyError PyVal)
    (convertBody saveBody : List PyVal → Except PyError PyVal)
    (k : Nat) (hk : k < commands.length)
    (hgen : (gpt (commands.get ⟨k, hk⟩).phrase).isOk = true) :
    (_process_command gpt synth convertBody saveBody (commands.get ⟨k, hk⟩)).isOk = true
    ∧ (∀ p ∈ (process_batch_core
          (fun c => _process_command gpt synth convertBody saveBody c) commands).errors,
        p.1 ≠ commands.get ⟨k, hk⟩)
    ∧ (process_batch_core
        (fun c => _process_command gpt synth convertBody saveBody c) commands).errors
      = commands.filterMap (fun c =>
          match gpt c.phrase with
          | Except.error e => some (c, pyErrMsg e)
          | Except.ok _ => none)
    ∧ (process_batch_core
        (fun c => _process_command gpt synth convertBody saveBody c) commands).total_commands
      = commands.length := by
  refine ⟨?_, ?_, ?_, ?_⟩
  · rw [_process_command_isOk]
    exact hgen
  · intro p hp he
    have hfail := errors_entry_fails
      (fun c => _process_command gpt synth convertBody saveBody c) commands p hp
    rw [he] at hfail
    rw [_process_command_isOk] at hfail
    rw [hgen] at hfail
    exact Bool.true_eq_false.mp hfail
  · rw [process_batch_core_spec]
    simp only []
    congr 1
    funext c
    exact procErrEntry_process_command gpt synth convertBody saveBody c
  · rw [process_batch_core_spec]

/-- Witness for the amended C1 at a concrete batch with a synthesis
collaborator that raises on every call. -/
theorem runBatch_synth_failure_isolated_witness :
    (_process_command sourceGpt synthAlwaysFail trivialBody trivialBody
      ([⟨"ON", "turn on", "english"⟩, ⟨"ON", "turn the thing on", "english"⟩].get
        ⟨1, by decide⟩)).isOk = true
    ∧ (process_batch_core
        (fun c => _process_command sourceGpt synthAlwaysFail trivialBody trivialBody c)
        [⟨"ON", "turn on", "english"⟩, ⟨"ON", "turn the thing on", "english"⟩]).total_commands
      = 2 := by
  have h := runBatch_synth_failure_isolated
    [⟨"ON", "turn on", "english"⟩, ⟨"ON", "turn the thing on", "english"⟩]
    sourceGpt synthAlwaysFail trivialBody trivialBody 1 (by decide) (by rfl)
  refine ⟨h.1, ?_⟩
  rw [h.2.2.2]
  rfl

/-- C2 counterexample: the command `⟨LIGHTS_ON, "turn on", english⟩`, whose
five placeholder variations all fail the case-insensitive substring filter
against `lights_on`, produces zero stored artifacts but ALSO zero error
entries — there is no `NoValidVariations` failure path anywhere in the
code; the command terminates as a success with an empty variation list. -/
theorem no_valid_variations_cex :
    _process_command sourceGpt sourceSynth trivialBody trivialBody
      ⟨"LIGHTS_ON", "turn on", "english"⟩ = Except.ok ([], [])
    ∧ (process_batch_core
        (fun c => _process_command sourceGpt sourceSynth trivialBody trivialBody c)
        [⟨"LIGHTS_ON", "turn on", "english"⟩]).errors = []
    ∧ (process_batch_core
        (fun c => _process_command sourceGpt sourceSynth trivialBody trivialBody c)
        [⟨"LIGHTS_ON", "turn on", "english"⟩]).successful_audio_files = 0 := by
  exact ⟨rfl, rfl, rfl⟩

/-- C2 (amended): a Command whose generated variations all fail the
intent-preservation filter yields zero stored artifacts and NO error
entry: `generate_variations` returns the empty list without raising, the
command's future returns `([], [])`, and the batch records it as a
success with zero variations and zero audio files. -/
theorem command_no_valid_variations (gpt : String → Except PyError (List String))
    (synth : String → String → Except PyError PyVal)
    (convertBody saveBody : List PyVal → Except PyError PyVal)
    (c : Command) (raws : List String)
    (hg : gpt c.phrase = Except.ok raws)
    (hf : _validate_variations raws c.intent = []) :
    _process_command gpt synth convertBody saveBody c = Except.ok ([], [])
    ∧ (process_batch_core
        (fun x => _process_command gpt synth convertBody saveBody x) [c]).errors = []
    ∧ (process_batch_core
        (fun x => _process_command gpt synth convertBody saveBody x) [c]).successful_audio_files
      = 0 := by
  have h1 : _process_command gpt synth convertBody saveBody c = Except.ok ([], []) := by
    rw [_process_command_eq, hg]
    show Except.ok (_validate_variations raws c.intent,
      create_audio_files synth convertBody saveBody (_validate_variations raws c.intent) c) = _
    rw [hf]
    rfl
  refine ⟨h1, ?_, ?_⟩
  · rw [process_batch_core_spec]
    simp [procErrEntry, h1]
  · rw [process_batch_core_spec]
    simp [procAudioCount, h1]

/-- Witness for the amended C2 at the concrete `LIGHTS_ON` command. -/
theorem command_no_valid_variations_witness :
    _process_command sourceGpt sourceSynth trivialBody trivialBody
      ⟨"LIGHTS_ON", "turn the lamp on", "english"⟩ = Except.ok ([], []) := by
  exact (command_no_valid_variations sourceGpt sourceSynth trivialBody trivialBody
    ⟨"LIGHTS_ON", "turn the lamp on", "english"⟩ (_call_gpt_api "turn the lamp on")
    (by rfl) (by rfl)).1

theorem data_ne_nil {s : String} (h : s ≠ "") : s.data ≠ [] := by
  intro hd
  apply h
  cases s
  simp at hd
  rw [hd]

theorem compOk_of_string {s : String} (hval : ∀ c ∈ s.data, pathLowerOk c = true)
    (hne : s.data ≠ []) : compOk s.data = true := by
  unfold compOk
  rw [Bool.and_eq_true]
  constructor
  · simp [List.isEmpty_iff, hne]
  · rw [List.all_eq_true]
    exact hval

theorem sanitized_ne_slash (s : String) : ∀ c ∈ (sanitize_path_component s).data, c ≠ '/' :=
  fun c hc => pathLowerOk_ne_slash (sanitize_all_pathLowerOk s c hc)

theorem wav_tail_ne_slash {c : Char} (h : c ∈ ['.', 'w', 'a', 'v']) : c ≠ '/' := by
  simp at h
  rcases h with rfl | rfl | rfl | rfl <;> decide

theorem bucketed_shape_aux (vc : VoiceCommand) (variation_id voice_id : String)
    (h1 : sanitize_path_component vc.language ≠ "")
    (h2 : sanitize_path_component vc.intent ≠ "")
    (h3 : sanitize_path_component variation_id ≠ "")
    (h4 : sanitize_path_component voice_id ≠ "") :
    matchesBucketedRegex (generate_s3_path defaultStorageConfig vc variation_id voice_id)
      = true := by
  have hslash : ("/" : String).data = ['/'] := rfl
  have hwav : (".wav" : String).data = ['.', 'w', 'a', 'v'] := rfl
  have hdata : (generate_s3_path defaultStorageConfig vc variation_id voice_id).data =
      ("femtosense-voice-commands" : String).data ++ '/' ::
        ((sanitize_path_component vc.language).data ++ '/' ::
          ((sanitize_path_component vc.intent).data ++ '/' ::
            ((sanitize_path_component variation_id).data ++ '/' ::
              ((sanitize_path_component voice_id).data ++ ['.', 'w', 'a', 'v'])))) := by
    simp [generate_s3_path, StorageConfig.get_s3_path, defaultStorageConfig,
      String.data_append, hslash, hwav, List.append_assoc]
  unfold matchesBucketedRegex
  rw [hdata]
  rw [splitOnCharL_append _ (by decide)]
  rw [splitOnCharL_append _ (sanitized_ne_slash vc.language)]
  rw [splitOnCharL_append _ (sanitized_ne_slash vc.intent)]
  rw [splitOnCharL_append _ (sanitized_ne_slash variation_id)]
  rw [splitOnCharL_no_sep (fun c hc => by
    rcases List.mem_append.mp hc with hm | hm
    · exact sanitized_ne_slash voice_id c hm
    · exact wav_tail_ne_slash hm)]
  show (compOk ("femtosense-voice-commands" : String).data
      && compOk (sanitize_path_component vc.language).data
      && compOk (sanitize_path_component vc.intent).data
      && compOk (sanitize_path_component variation_id).data
      && wavCompOk ((sanitize_path_component voice_id).data ++ ['.', 'w', 'a', 'v'])) = true
  rw [wavCompOk_append_wav]
  rw [compOk_of_string (sanitize_all_pathLowerOk vc.language) (data_ne_nil h1)]
  rw [compOk_of_string (sanitize_all_pathLowerOk vc.intent) (data_ne_nil h2)]
  rw [compOk_of_string (sanitize_all_pathLowerOk variation_id) (data_ne_nil h3)]
  rw [compOk_of_string (sanitize_all_pathLowerOk voice_id) (data_ne_nil h4)]
  rw [show compOk ("femtosense-voice-commands" : String).data = true from by decide]
  rfl

/-- C4 counterexample: at the concrete four-tuple
`(english, LIGHTS_ON, var1, Matt)` the canonical S3 path does NOT match
the spec regex `^[a-z0-9_-]+/[a-z0-9_-]+/[a-z0-9_-]+/[a-z0-9_-]+\.wav$`:
`get_s3_path` prepends the configured bucket name, so the output has five
slash-separated components, not four. -/
theorem canonical_path_regex_cex :
    matchesCanonicalRegex (generate_s3_path defaultStorageConfig
      ⟨"turn on the lights", "LIGHTS_ON", "english"⟩ "var1" "Matt") = false := by
  decide

/-- C4 (amended): `generate_s3_path` is deterministic (it is a pure
function of its inputs), and whenever each of the four sanitized
components is non-empty its output matches the bucket-prefixed shape
`^[a-z0-9_-]+/[a-z0-9_-]+/[a-z0-9_-]+/[a-z0-9_-]+/[a-z0-9_-]+\.wav$` —
five sanitized components, the first being the configured bucket name,
the last carrying the `.wav` suffix. -/
theorem canonical_path_deterministic_shape (vc : VoiceCommand) (variation_id voice_id : String)
    (h1 : sanitize_path_component vc.language ≠ "")
    (h2 : sanitize_path_component vc.intent ≠ "")
    (h3 : sanitize_path_component variation_id ≠ "")
    (h4 : sanitize_path_component voice_id ≠ "") :
    generate_s3_path defaultStorageConfig vc variation_id voice_id
      = generate_s3_path defaultStorageConfig vc variation_id voice_id
    ∧ matchesBucketedRegex (generate_s3_path defaultStorageConfig vc variation_id voice_id)
      = true :=
  ⟨rfl, bucketed_shape_aux vc variation_id voice_id h1 h2 h3 h4⟩

/-- Witness for the amended C4 at a concrete four-tuple. -/
theorem canonical_path_deterministic_shape_witness :
    matchesBucketedRegex (generate_s3_path defaultStorageConfig
      ⟨"turn on the lights", "LIGHTS_ON", "english"⟩ "var1" "Matt") = true :=
  (canonical_path_deterministic_shape ⟨"turn on the lights", "LIGHTS_ON", "english"⟩
    "var1" "Matt" (by decide) (by decide) (by decide) (by decide)).2

theorem pathSuffix_append_wav (s : String) : pathSuffix (s ++ ".wav") = ".wav" := by
  have hdata : (s ++ ".wav").data = s.data ++ ['.', 'w', 'a', 'v'] := by
    rw [String.data_append]
  unfold pathSuffix
  rw [hdata, List.reverse_append]
  have hrev : (['.', 'w', 'a', 'v'] : List Char).reverse = ['v', 'a', 'w', '.'] := rfl
  rw [hrev]
  simp only [List.cons_append, List.nil_append]
  rw [List.takeWhile_cons_of_pos (by decide), List.takeWhile_cons_of_pos (by decide),
    List.takeWhile_cons_of_pos (by decide), List.takeWhile_cons_of_neg (by decide)]
  rw [if_neg (by simp)]
  rfl

theorem mapWrite_same (st : StoreMap) (key : String) (data : List Nat) :
    mapWrite st key data key = some data := by
  unfold mapWrite
  rw [if_pos rfl]

theorem mapWrite_other (st : StoreMap) (key q : String) (data : List Nat) (h : q ≠ key) :
    mapWrite st key data q = st q := by
  unfold mapWrite
  rw [if_neg h]

/-- C5 counterexample: at the concrete metadata
`{language: english, intent: LIGHTS_ON, variation: v1, voice_id: Matt}`
the backend `FileManager._generate_file_path` produces the THREE-component
relative path `english/LIGHTS_ON/v1_Matt.wav` — variation and voice id
joined by an underscore inside the file name — which differs from the
claimed four-component layout `english/LIGHTS_ON/v1/Matt.wav` and does not
match the spec's four-component path regex (it also keeps the intent's
upper case). -/
theorem persisted_layout_cex :
    _generate_file_path ⟨"english", "LIGHTS_ON", "v1", some "Matt"⟩
      = ["english", "LIGHTS_ON", "v1_Matt.wav"]
    ∧ (["english", "LIGHTS_ON", "v1_Matt.wav"] : List String)
      ≠ ["english", "LIGHTS_ON", "v1", "Matt.wav"]
    ∧ matchesCanonicalRegex (joinPathL (_generate_file_path
        ⟨"english", "LIGHTS_ON", "v1", some "Matt"⟩)) = false := by
  exact ⟨rfl, by decide, by decide⟩

/-- C5 (amended): every artifact saved through
`FileManager.save_audio_file` is persisted locally at
`<base>/<language>/<intent>/<variation>_<voiceId>.wav` (three path
components below the base, with variation and voice id joined by an
underscore in the file name) and to S3 at
`<language>/<intent>/<variation>_<voiceId>.wav`; a later write to the
same metadata overwrites the earlier content at the same path, and no
other key of the local store is touched. -/
theorem save_audio_file_layout_overwrite
    (convEffect : FMState → String → String → FMState)
    (base : List String) (st : FMState) (data1 data2 : List Nat) (metadata : FMMetadata) :
    (save_audio_file convEffect base st data1 metadata).1.1
      = joinPathL (base ++ [metadata.language, metadata.intent,
          metadata.variation ++ "_" ++ metadata.voice_id.getD "default" ++ ".wav"])
    ∧ (save_audio_file convEffect base st data1 metadata).1.2
      = metadata.language ++ "/" ++ metadata.intent ++ "/"
          ++ (metadata.variation ++ "_" ++ metadata.voice_id.getD "default" ++ ".wav")
    ∧ (save_audio_file convEffect base
          (save_audio_file convEffect base st data1 metadata).2 data2 metadata).2.localStore
        ((save_audio_file convEffect base st data1 metadata).1.1) = some data2
    ∧ (save_audio_file convEffect base
          (save_audio_file convEffect base st data1 metadata).2 data2 metadata).2.s3Store
        ((save_audio_file convEffect base st data1 metadata).1.2) = some data2
    ∧ (∀ q, q ≠ (save_audio_file convEffect base st data1 metadata).1.1 →
        (save_audio_file convEffect base st data1 metadata).2.localStore q = st.localStore q) := by
  have hsuffix : pyLowerStr (pathSuffix
      (metadata.variation ++ "_" ++ metadata.voice_id.getD "default" ++ ".wav")) = ".wav" := by
    rw [pathSuffix_append_wav]
    rfl
  have hcond : ¬(pyLowerStr (pathSuffix
      (metadata.variation ++ "_" ++ metadata.voice_id.getD "default" ++ ".wav")) ≠ ".wav") := by
    rw [hsuffix]
    intro hne
    exact hne rfl
  have hname : (_generate_file_path metadata).getLastD ""
      = metadata.variation ++ "_" ++ metadata.voice_id.getD "default" ++ ".wav" := rfl
  have hresg : ∀ (st' : FMState) (d : List Nat),
      save_audio_file convEffect base st' d metadata =
      ((joinPathL (base ++ _generate_file_path metadata),
        metadata.language ++ "/" ++ metadata.intent ++ "/"
          ++ (metadata.variation ++ "_" ++ metadata.voice_id.getD "default" ++ ".wav")),
       FMState.mk
         (mapWrite st'.localStore (joinPathL (base ++ _generate_file_path metadata)) d)
         (mapWrite st'.s3Store
           (metadata.language ++ "/" ++ metadata.intent ++ "/"
             ++ (metadata.variation ++ "_" ++ metadata.voice_id.getD "default" ++ ".wav"))
           d)) := by
    intro st' d
    unfold save_audio_file
    simp only []
    rw [hname]
    rw [if_neg hcond]
  refine ⟨?_, ?_, ?_, ?_, ?_⟩
  · rw [hresg st data1]
    rfl
  · rw [hresg st data1]
  · rw [hresg st data1]
    simp only []
    rw [hresg _ data2]
    simp only []
    exact mapWrite_same _ _ _
  · rw [hresg st data1]
    simp only []
    rw [hresg _ data2]
    simp only []
    exact mapWrite_same _ _ _
  · intro q hq
    rw [hresg st data1] at hq ⊢
    simp only [] at hq ⊢
    exact mapWrite_other _ _ _ _ hq

/-- Witness for the amended C5 at a concrete metadata dictionary. -/
theorem save_audio_file_layout_overwrite_witness :
    (save_audio_file (fun s _ _ => s) ["tmp", "femtosense_poc"]
      (FMState.mk (fun _ => none) (fun _ => none)) [1, 2, 3]
      ⟨"english", "LIGHTS_ON", "v1", some "Matt"⟩).1.1
      = "tmp/femtosense_poc/english/LIGHTS_ON/v1_Matt.wav" := by
  have h := (save_audio_file_layout_overwrite (fun s _ _ => s) ["tmp", "femtosense_poc"]
    (FMState.mk (fun _ => none) (fun _ => none)) [1, 2, 3] [4, 5]
    ⟨"english", "LIGHTS_ON", "v1", some "Matt"⟩).1
  rw [h]
  rfl

/-- C7 counterexample: deleting a path at which no object exists (empty
local store, empty S3 store) returns `true`, not `false`:
`FileManager.delete_audio_file` returns the success of the S3
`delete_object` call, which succeeds whether or not the key exists. -/
theorem delete_nonexistent_returns_true_cex :
    (delete_audio_file "/tmp/femtosense_poc"
      (FMState.mk (fun _ => none) (fun _ => none)) "english/LIGHTS_ON/v1_Matt.wav").1
      = true := by
  rfl

/-- C7 (amended): the storage delete operation is total and idempotent in
effect — it never raises (all S3-client exceptions are caught, and the
modelled client, like S3's `delete_object`, succeeds on absent keys), a
repeated delete leaves the state unchanged, and afterwards the local key
is absent — but it returns `true` even when no object existed at the
path; `false` is returned only when the S3 client raises. -/
theorem mapRemove_idem (st : StoreMap) (key : String) :
    mapRemove (mapRemove st key) key = mapRemove st key := by
  funext q
  unfold mapRemove
  by_cases hq : q = key
  · rw [if_pos hq, if_pos hq]
  · rw [if_neg hq, if_neg hq]

theorem delete_total_idempotent_effect (base : String) (st : FMState) (file_path : String) :
    (delete_audio_file base st file_path).1 = true
    ∧ (delete_audio_file base st file_path).2.localStore (base ++ "/" ++ file_path) = none
    ∧ (delete_audio_file base (delete_audio_file base st file_path).2 file_path).2
        = (delete_audio_file base st file_path).2 := by
  have hnone : (delete_audio_file base st file_path).2.localStore
      (base ++ "/" ++ file_path) = none := by
    unfold delete_audio_file
    show (if (st.localStore (base ++ "/" ++ file_path)).isSome then
        mapRemove st.localStore (base ++ "/" ++ file_path)
       else st.localStore) (base ++ "/" ++ file_path) = none
    by_cases h : (st.localStore (base ++ "/" ++ file_path)).isSome
    · rw [if_pos h]
      unfold mapRemove
      rw [if_pos rfl]
    · rw [if_neg h]
      exact Option.not_isSome_iff_eq_none.mp h
  refine ⟨rfl, hnone, ?_⟩
  have hs3 : (delete_audio_file base st file_path).2.s3Store
      = mapRemove st.s3Store (lstripSlash (pyReplaceStr file_path base "")) := rfl
  conv_lhs => unfold delete_audio_file
  show FMState.mk
      (if ((delete_audio_file base st file_path).2.localStore
          (base ++ "/" ++ file_path)).isSome then
        mapRemove ((delete_audio_file base st file_path).2.localStore)
          (base ++ "/" ++ file_path)
       else (delete_audio_file base st file_path).2.localStore)
      (mapRemove ((delete_audio_file base st file_path).2.s3Store)
        (lstripSlash (pyReplaceStr file_path base "")))
      = (delete_audio_file base st file_path).2
  rw [hnone]
  rw [if_neg (by intro hf; exact Bool.noConfusion hf)]
  rw [hs3, mapRemove_idem]
  rfl

/-- Witness for the amended C7 at a concrete state and path. -/
theorem delete_total_idempotent_effect_witness :
    (delete_audio_file "/tmp/femtosense_poc"
      (FMState.mk (fun _ => none) (fun _ => none)) "english/LIGHTS_ON/v1_Matt.wav").1
      = true :=
  (delete_total_idempotent_effect "/tmp/femtosense_poc"
    (FMState.mk (fun _ => none) (fun _ => none)) "english/LIGHTS_ON/v1_Matt.wav").1

/-- C6 counterexample: the raw row `{intent: X, phrase: "a ! b",
language: english}` validates to a Command with phrase `"a  b"` (the `!`
is removed AFTER whitespace normalization, leaving a double space);
feeding that Command back through validation yields phrase `"a b"` — a
different Command, so `validate_row` is not idempotent on all valid rows. -/
theorem validate_row_idempotent_cex :
    validate_row ⟨"X", "a ! b", "english"⟩ = Except.ok ⟨"X", "a  b", "english"⟩
    ∧ validate_row ⟨"X", "a  b", "english"⟩ = Except.ok ⟨"X", "a b", "english"⟩
    ∧ (Command.mk "X" "a  b" "english") ≠ (Command.mk "X" "a b" "english") := by
  exact ⟨rfl, rfl, by decide⟩

/-- C6 (amended): `validate_row` is idempotent on every valid raw row
whose phrase consists only of alphanumeric and whitespace characters (so
the character-removal filter is inert): re-validating the produced
Command yields the same Command.  On phrases containing other characters
the filter can leave un-normalized whitespace behind, and idempotence
fails (see the counterexample). -/
theorem validate_row_idempotent_alnum_space (row : Command) (c1 : Command)
    (hphrase : ∀ ch ∈ row.phrase.data, keepAlnumSpace ch = true)
    (hv : validate_row row = Except.ok c1) :
    validate_row c1 = Except.ok c1 := by
  unfold validate_row at hv
  by_cases hlang : pyLowerStr row.language ∉ SUPPORTED_LANGUAGES
  · rw [if_pos hlang] at hv
    exact absurd hv (by simp)
  · rw [if_neg hlang] at hv
    by_cases hemp : map_intent row.phrase row.intent = "" ∨ sanitize_phrase row.phrase = ""
    · rw [if_pos hemp] at hv
      exact absurd hv (by simp)
    · rw [if_neg hemp] at hv
      have hc1 : c1 = ⟨map_intent row.phrase row.intent, sanitize_phrase row.phrase,
          pyLowerStr row.language⟩ := by
        have := Except.ok.inj hv
        exact this.symm
      have hmem : pyLowerStr row.language ∈ SUPPORTED_LANGUAGES := not_not.mp hlang
      have hintent : map_intent c1.phrase c1.intent = c1.intent := by
        rw [hc1]
        show map_intent (sanitize_phrase row.phrase) (map_intent row.phrase row.intent)
          = map_intent row.phrase row.intent
        unfold map_intent
        have hd : (String.mk ((pyStripBy Char.isWhitespace row.intent.data).map
            Char.toUpper)).data = (pyStripBy Char.isWhitespace row.intent.data).map
            Char.toUpper := rfl
        rw [hd]
        rw [pyStripBy_map Char.toUpper Char.isWhitespace _ toUpper_isWhitespace]
        rw [pyStripBy_idem]
        rw [List.map_map]
        have hcomp : (Char.toUpper ∘ Char.toUpper) = Char.toUpper := funext toUpper_idem
        rw [hcomp]
      have hlang2 : pyLowerStr c1.language = c1.language := by
        rw [hc1]
        show pyLowerStr (pyLowerStr row.language) = pyLowerStr row.language
        have hcases : pyLowerStr row.language = "korean"
            ∨ pyLowerStr row.language = "english"
            ∨ pyLowerStr row.language = "japanese" := by
          simpa [SUPPORTED_LANGUAGES] using hmem
        rcases hcases with he | he | he <;> rw [he] <;> rfl
      have hlmem : pyLowerStr c1.language ∈ SUPPORTED_LANGUAGES := by
        rw [hlang2, hc1]
        exact hmem
      have hphrase2 : sanitize_phrase c1.phrase = c1.phrase := by
        rw [hc1]
        show sanitize_phrase (sanitize_phrase row.phrase) = sanitize_phrase row.phrase
        unfold sanitize_phrase
        have hd : (String.mk (sanitizePhraseL row.phrase.data)).data
            = sanitizePhraseL row.phrase.data := rfl
        rw [hd, sanitizePhraseL_idem row.phrase.data hphrase]
      unfold validate_row
      rw [if_neg (not_not.mpr hlmem)]
      rw [if_neg (by
        rw [hintent, hphrase2]
        rw [hc1]
        exact hemp)]
      rw [hintent, hphrase2, hlang2]

/-- Witness for the amended C6 at a concrete row. -/
theorem validate_row_idempotent_alnum_space_witness :
    validate_row ⟨"LIGHTS ON", "turn on the lights", "english"⟩
      = Except.ok ⟨"LIGHTS ON", "turn on the lights", "english"⟩ :=
  validate_row_idempotent_alnum_space ⟨"Lights On", "turn on the lights", "English"⟩
    ⟨"LIGHTS ON", "turn on the lights", "english"⟩ (by decide) (by rfl)
